import Mathlib

/-
Verification of the kaleidoscope-backend stream-resolution layer.

The Python modules `app/platforms/soundcloud.py`, `app/platforms/youtube.py`,
`app/platforms/spotify.py` and `main.py` are shallowly embedded below.
Python dictionaries become structures with `Option` fields (a `none` field is
an absent or null key), Python integers become `Int` (or `Nat` where the
source guarantees nonnegativity), and Python truthiness tests are modelled by
explicit `truthy` helpers.  External I/O (the Spotify, SoundCloud and YouTube
network calls) is modelled by oracle values passed in as arguments, so every
function is the pure data transformation performed by the source.
-/

/-! ### Python truthiness helpers -/

/-- Python truthiness of an optional string: `None` and the empty string are falsy. -/
def truthyS : Option String → Bool
  | none => false
  | some s => !(s == "")

/-- Python truthiness of an optional integer: `None` and `0` are falsy. -/
def truthyI : Option Int → Bool
  | none => false
  | some n => !(n == 0)

/-! ### Decimal strings

Python renders numbers with `str` / f-strings and reads them back with `int`.
`strOfNat` renders a natural number in decimal (fuel-driven so that it
reduces definitionally), `pad2` models the `02d` format spec, and
`parseNatChars` models `int()` on a digit-only string. -/

/-- Decimal digit character for a value below ten. -/
def digitChar (n : Nat) : Char := Char.ofNat (48 + n)

/-- Fuel-driven decimal rendering of a natural number, most significant digit first. -/
def natToCharsAux : Nat → Nat → List Char
  | 0, _ => []
  | fuel + 1, n =>
    if n < 10 then [digitChar n]
    else natToCharsAux fuel (n / 10) ++ [digitChar (n % 10)]

/-- Decimal string of a natural number, as Python `str` renders it. -/
def strOfNat (n : Nat) : String := String.mk (natToCharsAux (n + 1) n)

/-- Decimal string of an integer, as Python `str` renders it. -/
def intStr (i : Int) : String :=
  if i < 0 then "-" ++ strOfNat i.natAbs else strOfNat i.toNat

/-- Two-digit zero padding of a natural number, as the Python format spec `02d`. -/
def pad2 (n : Nat) : String := if n < 10 then "0" ++ strOfNat n else strOfNat n

/-- Numeric value of a decimal digit character. -/
def charDigit (c : Char) : Nat := c.toNat - 48

/-- Value of a decimal digit string, as Python `int()` computes it on digit-only input. -/
def parseNatChars (cs : List Char) : Nat := cs.foldl (fun a c => a * 10 + charDigit c) 0

/-- Splitting a character list at colons, as Python `str.split` with a colon argument:
the accumulator holds the current chunk reversed. -/
def splitColonAux : List Char → List Char → List (List Char)
  | [], acc => [acc.reverse]
  | c :: rest, acc =>
    if c = ':' then acc.reverse :: splitColonAux rest []
    else splitColonAux rest (c :: acc)

/-- Python `duration_str.split` at colons. -/
def splitColon (cs : List Char) : List (List Char) := splitColonAux cs []

/-! ### `app/platforms/youtube.py`: duration helpers -/

/-- Model of `youtube.py _parse_duration`: parses a duration string such as `1:23` or
`1:02:03` into seconds.  Python maps `int()` over the colon-separated parts;
the model evaluates each part as a digit string. -/
def _parse_duration : Option String → Int
  | none => 0
  | some s =>
    if s == "" then 0
    else
      match (splitColon s.data).map (fun p => (parseNatChars p : Int)) with
      | [m, sec] => m * 60 + sec
      | [h, m, sec] => h * 3600 + m * 60 + sec
      | [o] => o
      | _ => 0

/-- Model of `youtube.py _format_duration_string`: converts seconds to `M:SS` or `H:MM:SS`
(minutes unpadded when there is no hour part). -/
def _format_duration_string (seconds : Int) : String :=
  if seconds ≤ 0 then "0:00"
  else
    let t := seconds.toNat
    let h := t / 3600
    let m := (t % 3600) / 60
    let s := t % 60
    if 0 < h then strOfNat h ++ ":" ++ pad2 m ++ ":" ++ pad2 s
    else strOfNat m ++ ":" ++ pad2 s

/-! ### `app/platforms/soundcloud.py`: duration helper -/

/-- Model of `soundcloud.py _format_duration_soundcloud`: converts milliseconds to
`MM:SS` or `H:MM:SS` (minutes always two-digit padded when there is no hour part). -/
def _format_duration_soundcloud (duration_ms : Option Int) : String :=
  match duration_ms with
  | none => "0:00"
  | some ms =>
    if ms ≤ 0 then "0:00"
    else
      let seconds := ms.toNat / 1000
      let minutes0 := seconds / 60
      let s := seconds % 60
      let hours := minutes0 / 60
      let minutes := minutes0 % 60
      if 0 < hours then strOfNat hours ++ ":" ++ pad2 minutes ++ ":" ++ pad2 s
      else pad2 minutes ++ ":" ++ pad2 s

/-! ### Lemmas about the decimal-string helpers -/

theorem charDigit_digitChar (d : Nat) (hd : d < 10) : charDigit (digitChar d) = d := by
  interval_cases d <;> rfl

theorem digitChar_ne_colon (d : Nat) (hd : d < 10) : digitChar d ≠ ':' := by
  interval_cases d <;> decide

theorem parseNatChars_append_singleton (l : List Char) (c : Char) :
    parseNatChars (l ++ [c]) = parseNatChars l * 10 + charDigit c := by
  simp [parseNatChars, List.foldl_append]

theorem parseNatChars_natToCharsAux (fuel : Nat) :
    ∀ n : Nat, n ≤ fuel → parseNatChars (natToCharsAux (fuel + 1) n) = n := by
  induction fuel with
  | zero =>
    intro n hn
    have hn0 : n = 0 := Nat.le_zero.mp hn
    subst hn0
    decide
  | succ f ih =>
    intro n hn
    by_cases h10 : n < 10
    · simp only [natToCharsAux, if_pos h10]
      simp [parseNatChars, charDigit_digitChar n h10]
    · have hdiv : n / 10 ≤ f := by omega
      have hstep : natToCharsAux (f + 1 + 1) n =
          natToCharsAux (f + 1) (n / 10) ++ [digitChar (n % 10)] := by
        rw [natToCharsAux, if_neg h10]
      rw [hstep, parseNatChars_append_singleton, ih (n / 10) hdiv,
        charDigit_digitChar (n % 10) (Nat.mod_lt n (by omega))]
      omega

theorem parseNatChars_strOfNat (n : Nat) : parseNatChars (strOfNat n).data = n :=
  parseNatChars_natToCharsAux n n (Nat.le_refl n)

theorem natToCharsAux_no_colon (fuel : Nat) :
    ∀ n : Nat, ':' ∉ natToCharsAux fuel n := by
  induction fuel with
  | zero => intro n; simp [natToCharsAux]
  | succ f ih =>
    intro n
    by_cases h10 : n < 10
    · simp only [natToCharsAux, if_pos h10, List.mem_singleton]
      exact fun h => digitChar_ne_colon n h10 h.symm
    · simp only [natToCharsAux, if_neg h10, List.mem_append, List.mem_singleton]
      rintro (h | h)
      · exact ih (n / 10) h
      · exact digitChar_ne_colon (n % 10) (Nat.mod_lt n (by omega)) h.symm

theorem strOfNat_no_colon (n : Nat) : ':' ∉ (strOfNat n).data :=
  natToCharsAux_no_colon (n + 1) n

theorem pad2_no_colon (n : Nat) : ':' ∉ (pad2 n).data := by
  by_cases h10 : n < 10
  · simp only [pad2, if_pos h10, String.data_append]
    intro h
    rcases List.mem_append.mp h with h | h
    · simp only [show ("0" : String).data = ['0'] from rfl, List.mem_singleton] at h
      exact absurd h (by decide)
    · exact strOfNat_no_colon n h
  · simp only [pad2, if_neg h10]
    exact strOfNat_no_colon n

theorem parseNatChars_pad2 (n : Nat) : parseNatChars (pad2 n).data = n := by
  by_cases h10 : n < 10
  · simp only [pad2, if_pos h10, String.data_append,
      show ("0" : String).data = ['0'] from rfl, List.singleton_append]
    have : parseNatChars ('0' :: (strOfNat n).data) = parseNatChars (strOfNat n).data := by
      simp [parseNatChars, List.foldl_cons, charDigit]
    rw [this, parseNatChars_strOfNat]
  · simp only [pad2, if_neg h10]
    exact parseNatChars_strOfNat n

theorem splitColonAux_no_colon (cs : List Char) :
    ∀ acc : List Char, ':' ∉ cs → splitColonAux cs acc = [acc.reverse ++ cs] := by
  induction cs with
  | nil => intro acc _; simp [splitColonAux]
  | cons c rest ih =>
    intro acc hmem
    have hc : c ≠ ':' := fun h => hmem (h ▸ List.mem_cons_self c rest)
    have hrest : ':' ∉ rest := fun h => hmem (List.mem_cons_of_mem c h)
    simp only [splitColonAux, if_neg hc]
    rw [ih (c :: acc) hrest]
    simp

theorem splitColonAux_append (a : List Char) :
    ∀ (b acc : List Char), ':' ∉ a →
      splitColonAux (a ++ ':' :: b) acc = (acc.reverse ++ a) :: splitColonAux b [] := by
  induction a with
  | nil => intro b acc _; simp [splitColonAux]
  | cons c rest ih =>
    intro b acc hmem
    have hc : c ≠ ':' := fun h => hmem (h ▸ List.mem_cons_self c rest)
    have hrest : ':' ∉ rest := fun h => hmem (List.mem_cons_of_mem c h)
    simp only [List.cons_append, List.append_eq, splitColonAux, if_neg hc]
    rw [ih b (c :: acc) hrest]
    simp

theorem splitColon_no_colon (cs : List Char) (h : ':' ∉ cs) : splitColon cs = [cs] := by
  simp [splitColon, splitColonAux_no_colon cs [] h]

theorem splitColon_append (a b : List Char) (h : ':' ∉ a) :
    splitColon (a ++ ':' :: b) = a :: splitColon b := by
  simp [splitColon, splitColonAux_append a b [] h]

theorem data_colon_append (x y : String) :
    (x ++ ":" ++ y).data = x.data ++ ':' :: y.data := by
  simp [String.data_append, show (":" : String).data = [':'] from rfl]

/-- C10 — Round-trip of the video-catalog duration helpers: parsing the formatted
duration string of any nonnegative number of seconds gives back that number. -/
theorem c10_duration_roundtrip (s : Int) (h : 0 ≤ s) :
    _parse_duration (some (_format_duration_string s)) = s := by
  by_cases hle : s ≤ 0
  · have hs0 : s = 0 := le_antisymm hle h
    subst hs0
    decide
  · have hpos : 0 < s := lt_of_not_le hle
    simp only [_format_duration_string, if_neg hle]
    set t := s.toNat with ht
    have hts : (t : Int) = s := Int.toNat_of_nonneg h
    by_cases hh : 0 < t / 3600
    · simp only [if_pos hh]
      have hdata : (strOfNat (t / 3600) ++ ":" ++ pad2 (t % 3600 / 60) ++ ":" ++
          pad2 (t % 60)).data =
          (strOfNat (t / 3600)).data ++ ':' ::
            ((pad2 (t % 3600 / 60)).data ++ ':' :: (pad2 (t % 60)).data) := by
        rw [show strOfNat (t / 3600) ++ ":" ++ pad2 (t % 3600 / 60) ++ ":" ++ pad2 (t % 60) =
            strOfNat (t / 3600) ++ ":" ++ (pad2 (t % 3600 / 60) ++ ":" ++ pad2 (t % 60)) by
          simp [String.ext_iff, String.data_append, List.append_assoc]]
        rw [data_colon_append, data_colon_append]
      have hne : ¬(strOfNat (t / 3600) ++ ":" ++ pad2 (t % 3600 / 60) ++ ":" ++
          pad2 (t % 60) == "") = true := by
        intro hcontra
        have := String.ext_iff.mp (eq_of_beq hcontra)
        rw [hdata] at this
        simp at this
      simp only [_parse_duration, if_neg hne]
      rw [hdata, splitColon_append _ _ (strOfNat_no_colon _),
        splitColon_append _ _ (pad2_no_colon _),
        splitColon_no_colon _ (pad2_no_colon _)]
      simp only [List.map_cons, List.map_nil, parseNatChars_strOfNat,
        parseNatChars_pad2]
      rw [← hts]
      push_cast
      have h1 : t / 3600 * 3600 + t % 3600 / 60 * 60 + t % 60 = t := by omega
      omega
    · simp only [if_neg hh]
      have hdata : (strOfNat (t % 3600 / 60) ++ ":" ++ pad2 (t % 60)).data =
          (strOfNat (t % 3600 / 60)).data ++ ':' :: (pad2 (t % 60)).data :=
        data_colon_append _ _
      have hne : ¬(strOfNat (t % 3600 / 60) ++ ":" ++ pad2 (t % 60) == "") = true := by
        intro hcontra
        have := String.ext_iff.mp (eq_of_beq hcontra)
        rw [hdata] at this
        simp at this
      simp only [_parse_duration, if_neg hne]
      rw [hdata, splitColon_append _ _ (strOfNat_no_colon _),
        splitColon_no_colon _ (pad2_no_colon _)]
      simp only [List.map_cons, List.map_nil, parseNatChars_strOfNat,
        parseNatChars_pad2]
      rw [← hts]
      push_cast
      have h1 : t / 3600 = 0 := by omega
      omega

/-- C10 witness: the round trip evaluated at 3725 seconds. -/
theorem c10_witness :
    (0 : Int) ≤ 3725 ∧ _parse_duration (some (_format_duration_string 3725)) = 3725 :=
  ⟨by decide, c10_duration_roundtrip 3725 (by decide)⟩

/-- C8 (amended) — Duration formatting: the video-catalog formatter maps 0 s to
"0:00", 65 s to "1:05" and 3725 s to "1:02:05" (minutes unpadded without an hour
part), while the upload-catalog formatter zero-pads minutes when there is no
hour part: 0 ms to "0:00", 65000 ms to "01:05" and 3725000 ms to "1:02:05". -/
theorem c8_duration_formatting :
    _format_duration_string 0 = "0:00" ∧
    _format_duration_string 65 = "1:05" ∧
    _format_duration_string 3725 = "1:02:05" ∧
    _format_duration_soundcloud (some 0) = "0:00" ∧
    _format_duration_soundcloud (some 65000) = "01:05" ∧
    _format_duration_soundcloud (some 3725000) = "1:02:05" := by
  refine ⟨by decide, by decide, by decide, by decide, by decide, by decide⟩

/-- C8 counterexample: a 65-second upload-catalog track formats to "01:05",
not to the "1:05" the claim requires of every durationString the system returns. -/
theorem c8_counterexample :
    _format_duration_soundcloud (some 65000) = "01:05" ∧
    ("01:05" : String) ≠ "1:05" := by
  refine ⟨by decide, by decide⟩

/-! ### `app/platforms/soundcloud.py`: track normalization -/

/-- One entry of the `media.transcodings` list of a SoundCloud track record. -/
structure Transcoding where
  protocol : Option String := none
  url : Option String := none
  deriving DecidableEq

/-- The `user` sub-record of a SoundCloud track record. -/
structure SCUser where
  username : Option String := none
  avatar_url : Option String := none
  deriving DecidableEq

/-- A raw SoundCloud track record, with the keys `format_soundcloud_track` reads. -/
structure SCTrackData where
  id : Option Int := none
  title : Option String := none
  user : Option SCUser := none
  streamable : Bool := false
  transcodings : List Transcoding := []
  duration : Option Int := none
  genre : Option String := none
  permalink_url : Option String := none
  artwork_url : Option String := none
  deriving DecidableEq

/-- ASCII lower-casing of a character, as Python `str.lower` acts on ASCII. -/
def charToLower (c : Char) : Char :=
  if 65 ≤ c.toNat ∧ c.toNat ≤ 90 then Char.ofNat (c.toNat + 32) else c

/-- Python `s.lower()` (ASCII range). -/
def strToLower (s : String) : String := String.mk (s.data.map charToLower)

/-- Python `s.startswith(pat)`. -/
def strStartsWith (s pat : String) : Bool := pat.data.isPrefixOf s.data

/-- Does `pat` occur as a contiguous sublist? -/
def listContainsSub (pat : List Char) : List Char → Bool
  | [] => pat.isEmpty
  | c :: rest => pat.isPrefixOf (c :: rest) || listContainsSub pat rest

/-- Substring test, as the Python `in` operator on strings. -/
def strContains (s pat : String) : Bool := listContainsSub pat.data s.data

/-- Replace every occurrence of a nonempty pattern, scanning left to right,
as Python `str.replace`.  Fuel-driven over the remaining length. -/
def replaceChars (pat repl : List Char) : Nat → List Char → List Char
  | 0, cs => cs
  | _ + 1, [] => []
  | fuel + 1, c :: cs =>
    if pat.isPrefixOf (c :: cs) then
      repl ++ replaceChars pat repl fuel (List.drop pat.length (c :: cs))
    else
      c :: replaceChars pat repl fuel cs

/-- Python `s.replace(pat, repl)`. -/
def strReplace (s pat repl : String) : String :=
  String.mk (replaceChars pat.data repl.data s.data.length s.data)

/-- The size markers `_get_safe_artwork_url_soundcloud` rewrites. -/
def sizes_to_replace : List String :=
  ["badge", "tiny", "small", "t67x67", "mini", "t120x120", "large", "t300x300", "crop"]

/-- Model of `soundcloud.py _get_safe_artwork_url_soundcloud` with the default preferred
size `t500x500`: upgrades a SoundCloud artwork URL to a larger size. -/
def _get_safe_artwork_url_soundcloud (url : Option String) : Option String :=
  match url with
  | none => none
  | some u =>
    if u == "" then none
    else if strContains u "-t500x500." || strContains u "-original." then some u
    else
      match sizes_to_replace.find? (fun m => strContains u ("-" ++ m ++ ".")) with
      | some m => some (strReplace u ("-" ++ m ++ ".") "-t500x500.")
      | none => if strStartsWith u "http" then some u else none

/-- The normalized track dictionary `format_soundcloud_track` produces. -/
structure SCFormatted where
  id : String
  title : String
  artist : String
  duration : Int
  durationString : String
  source : String
  streamable : Bool
  coverArt : Option String
  genre : Option String
  permalinkUrl : Option String
  deriving DecidableEq

/-- The transcoding scan of `format_soundcloud_track`: is there a progressive
delivery entry with a url?  (The Python loop with early break is an any-scan.) -/
def hasProgressiveStream (t : SCTrackData) : Bool :=
  t.transcodings.any (fun tc => tc.protocol == some "progressive" && truthyS tc.url)

/-- Model of `soundcloud.py format_soundcloud_track`: normalizes a raw SoundCloud record,
dropping records without a truthy id and records that are neither progressively
streamable nor flagged streamable upstream. -/
def format_soundcloud_track (track_data : SCTrackData) : Option SCFormatted :=
  if !truthyI track_data.id then none
  else
    let has_progressive_stream := hasProgressiveStream track_data
    let is_streamable_api_flag := track_data.streamable
    if !has_progressive_stream && !is_streamable_api_flag then none
    else
      let duration_ms := track_data.duration.getD 0
      let art := _get_safe_artwork_url_soundcloud track_data.artwork_url
      let final_cover_art :=
        if truthyS art then art
        else _get_safe_artwork_url_soundcloud (track_data.user.bind SCUser.avatar_url)
      some {
        id := intStr (track_data.id.getD 0)
        title := track_data.title.getD "Unknown Title"
        artist := (track_data.user.bind SCUser.username).getD "Unknown Artist"
        duration := duration_ms / 1000
        durationString := _format_duration_soundcloud (some duration_ms)
        source := "soundcloud"
        streamable := has_progressive_stream || is_streamable_api_flag
        coverArt := final_cover_art
        genre := track_data.genre
        permalinkUrl := track_data.permalink_url }

/-! ### Nonemptiness of rendered decimal strings -/

theorem natToCharsAux_ne_nil (fuel n : Nat) : natToCharsAux (fuel + 1) n ≠ [] := by
  by_cases h10 : n < 10 <;> simp [natToCharsAux, h10]

theorem strOfNat_ne_empty (n : Nat) : strOfNat n ≠ "" := by
  intro h
  exact natToCharsAux_ne_nil n n (congrArg String.data h)

theorem intStr_ne_empty (i : Int) : intStr i ≠ "" := by
  unfold intStr
  by_cases hneg : i < 0
  · simp only [if_pos hneg]
    intro h
    have := congrArg String.data h
    rw [String.data_append] at this
    simp [show ("-" : String).data = ['-'] from rfl] at this
  · simp only [if_neg hneg]
    exact strOfNat_ne_empty i.toNat

/-- C6 (amended) — Among upload-catalog records with a truthy id, the normalizer
keeps a record iff it exposes a progressive delivery entry with a url or carries
the upstream streamable flag, and every normalized track it produces has
`streamable = true`. -/
theorem c6_streamable_filter (t : SCTrackData) (hid : truthyI t.id = true) :
    ((format_soundcloud_track t).isSome ↔
      (hasProgressiveStream t = true ∨ t.streamable = true)) ∧
    (∀ nt : SCFormatted, format_soundcloud_track t = some nt → nt.streamable = true) := by
  cases hp : hasProgressiveStream t <;> cases hs : t.streamable <;>
    refine ⟨by simp [format_soundcloud_track, hid, hp, hs], fun nt hnt => ?_⟩ <;>
    simp [format_soundcloud_track, hid, hp, hs] at hnt <;>
    simp [← hnt]

/-- A record with a progressive stream but no id, for the C6 counterexample. -/
def c6NoIdRecord : SCTrackData :=
  { id := none,
    transcodings := [{ protocol := some "progressive", url := some "https://p/1" }] }

/-- C6 counterexample: a record exposing a progressive delivery entry with a url
but lacking an id is dropped, so keeping is not equivalent to the streamability
condition over all records. -/
theorem c6_counterexample :
    hasProgressiveStream c6NoIdRecord = true ∧
    format_soundcloud_track c6NoIdRecord = none := by
  refine ⟨by decide, rfl⟩

/-- A record with a truthy id and the upstream streamable flag, for the C6 witness. -/
def c6FlaggedRecord : SCTrackData := { id := some 42, streamable := true }

/-- C6 witness: the amended equivalence evaluated on a concrete flagged record. -/
theorem c6_witness :
    truthyI c6FlaggedRecord.id = true ∧
    (((format_soundcloud_track c6FlaggedRecord).isSome ↔
      (hasProgressiveStream c6FlaggedRecord = true ∨ c6FlaggedRecord.streamable = true)) ∧
     (∀ nt : SCFormatted, format_soundcloud_track c6FlaggedRecord = some nt →
        nt.streamable = true)) :=
  ⟨rfl, c6_streamable_filter c6FlaggedRecord rfl⟩

/-! ### `app/platforms/youtube.py`: thumbnail selection -/

/-- A thumbnail dictionary entry, with the keys `_get_best_thumbnail` reads. -/
structure ThumbDict where
  url : Option String := none
  width : Option Int := none
  height : Option Int := none
  id : Option String := none
  deriving DecidableEq

/-- A thumbnail list entry: either a dictionary or a bare URL string
(the only shapes the source handles; anything else is skipped by `isinstance`). -/
inductive Thumb where
  | dict (d : ThumbDict)
  | str (s : String)
  deriving DecidableEq

/-- The `quality_order` priority list of `_get_best_thumbnail`. -/
def quality_order : List String :=
  ["maxresdefault", "sddefault", "hqdefault", "mqdefault", "default"]

/-- The all-sized test of `_get_best_thumbnail`: a dict entry carrying url, width
and height keys. -/
def thumbSized : Thumb → Bool
  | .dict d => d.url.isSome && d.width.isSome && d.height.isSome
  | .str _ => false

/-- The max key of `_get_best_thumbnail`: width times height, each defaulting to 0. -/
def thumbArea : Thumb → Int
  | .dict d => d.width.getD 0 * d.height.getD 0
  | .str _ => 0

/-- Python `max` with the area key: the first element of maximal area. -/
def maxByArea : List Thumb → Option Thumb
  | [] => none
  | t :: rest =>
    match maxByArea rest with
    | none => some t
    | some b => if thumbArea b > thumbArea t then some b else some t

/-- The inner quality loop of `_get_best_thumbnail`: record a quality key the url
(or thumbnail id) matches, unless already recorded. -/
def addQualities (url : String) (matched : String → Bool)
    (found : List (String × String)) : List (String × String) :=
  quality_order.foldl
    (fun fnd q => if matched q && (fnd.lookup q).isNone then (q, url) :: fnd else fnd)
    found

/-- One iteration of the reverse scan of `_get_best_thumbnail`, updating the
found-qualities table and the running best url. -/
def thumbFoldStep (state : List (String × String) × Option String) (thumb : Thumb) :
    List (String × String) × Option String :=
  match thumb with
  | .dict d =>
    match d.url with
    | none => state
    | some u =>
      if u == "" then state
      else
        let thumb_id := strToLower (d.id.getD "")
        (addQualities u (fun q => strContains u q || (q == thumb_id)) state.1, some u)
  | .str s =>
    if strStartsWith s "http" then
      (addQualities s (fun q => strContains s q) state.1, some s)
    else state

/-- Model of `youtube.py _get_best_thumbnail`: picks the best thumbnail URL — the
maximum-area entry when every entry carries url, width and height, otherwise the
best quality label found in a reverse scan, otherwise the last well-formed url
of that scan, otherwise null. -/
def _get_best_thumbnail (thumbnails : Option (List Thumb)) : Option String :=
  match thumbnails with
  | none => none
  | some ts =>
    if ts.isEmpty then none
    else if ts.all thumbSized then
      match maxByArea ts with
      | some (.dict d) => d.url
      | _ => none
    else
      let st := ts.reverse.foldl thumbFoldStep ([], none)
      match quality_order.find? (fun q => (st.1.lookup q).isSome) with
      | some q => st.1.lookup q
      | none => st.2

theorem maxByArea_cons_spec (x : Thumb) (xs : List Thumb) :
    ∃ t, t ∈ x :: xs ∧ maxByArea (x :: xs) = some t ∧
      ∀ u ∈ x :: xs, thumbArea u ≤ thumbArea t := by
  induction xs generalizing x with
  | nil =>
    refine ⟨x, List.mem_cons_self x [], by simp [maxByArea], ?_⟩
    intro u hu
    rcases List.mem_singleton.mp hu with rfl
    exact le_refl _
  | cons a b ih =>
    obtain ⟨m, hmem, hmax, hbound⟩ := ih a
    by_cases hgt : thumbArea x < thumbArea m
    · refine ⟨m, List.mem_cons_of_mem x hmem, ?_, ?_⟩
      · rw [maxByArea, hmax]
        show (if thumbArea x < thumbArea m then some m else some x) = some m
        rw [if_pos hgt]
      · intro u hu
        rcases List.mem_cons.mp hu with rfl | hu
        · exact le_of_lt hgt
        · exact hbound u hu
    · refine ⟨x, List.mem_cons_self x (a :: b), ?_, ?_⟩
      · rw [maxByArea, hmax]
        show (if thumbArea x < thumbArea m then some m else some x) = some x
        rw [if_neg hgt]
      · intro u hu
        rcases List.mem_cons.mp hu with rfl | hu
        · exact le_refl _
        · exact le_trans (hbound u hu) (le_of_not_lt hgt)

theorem maxByArea_spec (l : List Thumb) (hne : l ≠ []) :
    ∃ t, t ∈ l ∧ maxByArea l = some t ∧ ∀ u ∈ l, thumbArea u ≤ thumbArea t := by
  cases l with
  | nil => exact absurd rfl hne
  | cons x xs => exact maxByArea_cons_spec x xs

/-! #### The fallback scan, characterized

The sizes-absent branch of `_get_best_thumbnail` scans the reversed list,
recording for each quality label the url of the first matching well-formed
entry it meets (the last in list order) and keeping the last well-formed url
it meets (the first in list order) as the running best.  The definitions
below name these notions and the lemmas prove the fold computes them. -/

/-- The well-formed contribution of a fallback-scan entry: a dict entry needs
a truthy url (paired with its lowered id label), a bare string must start
with http (it carries no id label, and no quality label is empty). -/
def thumbUrlId : Thumb → Option (String × String)
  | .dict d =>
    match d.url with
    | some u => if u == "" then none else some (u, strToLower (d.id.getD ""))
    | none => none
  | .str s => if strStartsWith s "http" then some (s, "") else none

/-- Does a well-formed entry match a quality label: the label occurs in the
url or equals the entry's lowered id. -/
def qMatches (q : String) (p : String × String) : Bool :=
  strContains p.1 q || (q == p.2)

/-- The well-formed entries of a thumbnail list, in list order. -/
def wfEntries (ts : List Thumb) : List (String × String) := ts.filterMap thumbUrlId

/-- The running best url of the fallback scan over a processing list. -/
def lastWfUrl : List Thumb → Option String → Option String
  | [], acc => acc
  | t :: l, acc =>
    match thumbUrlId t with
    | some (u, _) => lastWfUrl l (some u)
    | none => lastWfUrl l acc

theorem foldl_add_congr (u : String) (f g : String → Bool) :
    ∀ (L : List String) (st : List (String × String)), (∀ q ∈ L, f q = g q) →
      L.foldl (fun fnd q => if f q && (fnd.lookup q).isNone then (q, u) :: fnd else fnd) st =
      L.foldl (fun fnd q => if g q && (fnd.lookup q).isNone then (q, u) :: fnd else fnd) st := by
  intro L
  induction L with
  | nil => intro st _; rfl
  | cons a L ih =>
    intro st h
    simp only [List.foldl_cons]
    rw [h a (List.mem_cons_self a L)]
    exact ih _ fun q hq => h q (List.mem_cons_of_mem a hq)

theorem addQualities_congr (u : String) (f g : String → Bool)
    (h : ∀ q ∈ quality_order, f q = g q) (st : List (String × String)) :
    addQualities u f st = addQualities u g st := by
  unfold addQualities
  exact foldl_add_congr u f g quality_order st h

theorem addQualities_empty_id (u : String) (st : List (String × String)) :
    addQualities u (fun q => strContains u q) st =
      addQualities u (fun q => strContains u q || (q == "")) st := by
  refine addQualities_congr u _ _ (fun q hq => ?_) st
  have hq' : q = "maxresdefault" ∨ q = "sddefault" ∨ q = "hqdefault" ∨
      q = "mqdefault" ∨ q = "default" := by
    simpa [quality_order] using hq
  have hne : (q == "") = false := by
    rcases hq' with rfl | rfl | rfl | rfl | rfl <;> decide
  rw [hne, Bool.or_false]

theorem thumbFoldStep_eq (st : List (String × String) × Option String) (t : Thumb) :
    thumbFoldStep st t =
      match thumbUrlId t with
      | none => st
      | some (u, tid) =>
        (addQualities u (fun q => strContains u q || (q == tid)) st.1, some u) := by
  cases t with
  | dict d =>
    cases hu : d.url with
    | none => simp [thumbFoldStep, thumbUrlId, hu]
    | some u =>
      by_cases hue : (u == "") = true
      · simp [thumbFoldStep, thumbUrlId, hu, hue]
      · simp [thumbFoldStep, thumbUrlId, hu, hue]
  | str s =>
    by_cases hs : strStartsWith s "http" = true
    · simp only [thumbFoldStep, thumbUrlId, hs, if_true]
      rw [addQualities_empty_id]
    · simp [thumbFoldStep, thumbUrlId, hs]

theorem lookup_cons_ne (q a u : String) (st : List (String × String)) (h : q ≠ a) :
    List.lookup q ((a, u) :: st) = List.lookup q st := by
  simp [List.lookup, beq_eq_false_iff_ne.mpr h]

theorem lookup_cons_self (q u : String) (st : List (String × String)) :
    List.lookup q ((q, u) :: st) = some u := by
  simp [List.lookup]

theorem lookup_addFold_not_mem (u : String) (f : String → Bool) :
    ∀ (L : List String) (st : List (String × String)) (q : String), q ∉ L →
      (L.foldl (fun fnd q' => if f q' && (fnd.lookup q').isNone then (q', u) :: fnd else fnd)
        st).lookup q = st.lookup q := by
  intro L
  induction L with
  | nil => intro st q _; rfl
  | cons a L ih =>
    intro st q h
    have ha : q ≠ a := fun he => h (he ▸ List.mem_cons_self a L)
    have hL : q ∉ L := fun he => h (List.mem_cons_of_mem a he)
    simp only [List.foldl_cons]
    rw [ih _ q hL]
    by_cases hc : (f a && (st.lookup a).isNone) = true
    · rw [if_pos hc, lookup_cons_ne q a u st ha]
    · rw [if_neg hc]

theorem lookup_addFold_mem (u : String) (f : String → Bool) :
    ∀ (L : List String) (st : List (String × String)) (q : String), q ∈ L → L.Nodup →
      (L.foldl (fun fnd q' => if f q' && (fnd.lookup q').isNone then (q', u) :: fnd else fnd)
        st).lookup q =
      (if f q && (st.lookup q).isNone then some u else st.lookup q) := by
  intro L
  induction L with
  | nil => intro st q h _; exact absurd h (List.not_mem_nil q)
  | cons a L ih =>
    intro st q h hnd
    simp only [List.foldl_cons]
    rcases List.mem_cons.mp h with rfl | hq
    · have hqL : q ∉ L := (List.nodup_cons.mp hnd).1
      rw [lookup_addFold_not_mem u f L _ q hqL]
      by_cases hc : (f q && (st.lookup q).isNone) = true
      · rw [if_pos hc, if_pos hc, lookup_cons_self]
      · rw [if_neg hc, if_neg hc]
    · have hnd' := (List.nodup_cons.mp hnd).2
      have hqa : q ≠ a := fun he => (List.nodup_cons.mp hnd).1 (he ▸ hq)
      by_cases hc : (f a && (st.lookup a).isNone) = true
      · rw [if_pos hc, ih _ q hq hnd', lookup_cons_ne q a u st hqa]
      · rw [if_neg hc, ih st q hq hnd']

theorem addQualities_lookup (u : String) (f : String → Bool) (st : List (String × String))
    (q : String) (hq : q ∈ quality_order) :
    (addQualities u f st).lookup q =
      (if f q && (st.lookup q).isNone then some u else st.lookup q) := by
  unfold addQualities
  exact lookup_addFold_mem u f quality_order st q hq (by decide)

theorem thumbFold_snd (l : List Thumb) :
    ∀ st : List (String × String) × Option String,
      (l.foldl thumbFoldStep st).2 = lastWfUrl l st.2 := by
  induction l with
  | nil => intro st; rfl
  | cons t l ih =>
    intro st
    rw [List.foldl_cons, thumbFoldStep_eq]
    cases ht : thumbUrlId t with
    | none =>
      dsimp only
      rw [ih st]
      simp only [lastWfUrl, ht]
    | some p =>
      obtain ⟨u, tid⟩ := p
      dsimp only
      rw [ih _]
      simp only [lastWfUrl, ht]

theorem thumbFold_lookup (q : String) (hq : q ∈ quality_order) (l : List Thumb) :
    ∀ st : List (String × String) × Option String,
      ((l.foldl thumbFoldStep st).1.lookup q) =
        (match st.1.lookup q with
         | some v => some v
         | none => ((l.filterMap thumbUrlId).find? (qMatches q)).map Prod.fst) := by
  induction l with
  | nil =>
    intro st
    cases hst : st.1.lookup q <;> simp [hst]
  | cons t l ih =>
    intro st
    rw [List.foldl_cons, thumbFoldStep_eq]
    cases ht : thumbUrlId t with
    | none =>
      dsimp only
      rw [ih st, List.filterMap_cons_none ht]
    | some p =>
      obtain ⟨u, tid⟩ := p
      dsimp only
      rw [ih ((addQualities u (fun q' => strContains u q' || (q' == tid)) st.1, some u)),
        List.filterMap_cons_some ht]
      dsimp only
      rw [addQualities_lookup u (fun q' => strContains u q' || (q' == tid)) st.1 q hq]
      by_cases hm : (strContains u q || (q == tid)) = true
      · have hm' : qMatches q (u, tid) = true := hm
        cases hst : st.1.lookup q with
        | some v => simp [hst]
        | none =>
          simp only [hst, Option.isNone_none, Bool.and_true]
          rw [if_pos hm, List.find?_cons_of_pos _ hm']
          simp
      · rw [Bool.not_eq_true] at hm
        have hm' : qMatches q (u, tid) = false := hm
        simp only [hm, Bool.false_and, Bool.false_eq_true, if_false]
        rw [List.find?_cons_of_neg _ (by simp [hm'])]

theorem lastWfUrl_append (l1 l2 : List Thumb) :
    ∀ acc, lastWfUrl (l1 ++ l2) acc = lastWfUrl l2 (lastWfUrl l1 acc) := by
  induction l1 with
  | nil => intro acc; rfl
  | cons t l ih =>
    intro acc
    cases ht : thumbUrlId t with
    | none =>
      simp only [List.cons_append, lastWfUrl, ht]
      exact ih acc
    | some p =>
      obtain ⟨u, tid⟩ := p
      simp only [List.cons_append, lastWfUrl, ht]
      exact ih (some u)

theorem lastWfUrl_reverse (ts : List Thumb) :
    lastWfUrl ts.reverse none = ((wfEntries ts).head?).map Prod.fst := by
  induction ts with
  | nil => rfl
  | cons t rest ih =>
    rw [List.reverse_cons, lastWfUrl_append]
    cases ht : thumbUrlId t with
    | none =>
      simp only [lastWfUrl, ht]
      rw [ih]
      simp only [wfEntries, List.filterMap_cons_none ht]
    | some p =>
      obtain ⟨u, tid⟩ := p
      simp only [lastWfUrl, ht]
      simp [wfEntries, List.filterMap_cons_some ht]

theorem find?_congr_mem {α : Type} (p p' : α → Bool) :
    ∀ l : List α, (∀ x ∈ l, p x = p' x) → l.find? p = l.find? p' := by
  intro l
  induction l with
  | nil => intro _; rfl
  | cons a l ih =>
    intro h
    have ha := h a (List.mem_cons_self a l)
    by_cases hpa : p a = true
    · rw [List.find?_cons_of_pos _ hpa, List.find?_cons_of_pos _ (ha ▸ hpa)]
    · rw [Bool.not_eq_true] at hpa
      rw [List.find?_cons_of_neg _ (by simp [hpa]),
        List.find?_cons_of_neg _ (by simp [← ha, hpa])]
      exact ih fun x hx => h x (List.mem_cons_of_mem a hx)

theorem lookup_isSome_eq_any (ts : List Thumb) (q : String) (hq : q ∈ quality_order) :
    ((ts.reverse.foldl thumbFoldStep ([], none)).1.lookup q).isSome =
      (wfEntries ts).any (qMatches q) := by
  rw [thumbFold_lookup q hq ts.reverse ([], none)]
  dsimp only
  rw [List.filterMap_reverse]
  cases hf : (ts.filterMap thumbUrlId).reverse.find? (qMatches q) with
  | some p =>
    have hmem : p ∈ (ts.filterMap thumbUrlId).reverse := List.mem_of_find?_eq_some hf
    have hp : qMatches q p = true := List.find?_some hf
    have hany : (wfEntries ts).any (qMatches q) = true :=
      List.any_eq_true.mpr ⟨p, List.mem_reverse.mp hmem, hp⟩
    rw [hany]
    rfl
  | none =>
    have hany : (wfEntries ts).any (qMatches q) = false := by
      rw [Bool.eq_false_iff]
      intro hany
      obtain ⟨x, hx, hpx⟩ := List.any_eq_true.mp hany
      have hxr : qMatches q x = true ∧ x ∈ (ts.filterMap thumbUrlId).reverse :=
        ⟨hpx, List.mem_reverse.mpr hx⟩
      exact absurd hpx (List.find?_eq_none.mp hf x hxr.2)
    rw [hany]
    rfl

/-- The sizes-absent branch of `_get_best_thumbnail`, characterized: when not
every entry is sized, the result is the url of the last well-formed entry
matching the best quality label present (in the priority order); when no
label matches, the last well-formed url seen in the reverse scan — the first
well-formed entry of the list; when there is no well-formed entry, null. -/
theorem best_thumbnail_fallback (ts : List Thumb) (hsz : ts.all thumbSized = false) :
    _get_best_thumbnail (some ts) =
      (match quality_order.find? (fun q => (wfEntries ts).any (qMatches q)) with
       | some q => (((wfEntries ts).reverse).find? (qMatches q)).map Prod.fst
       | none => ((wfEntries ts).head?).map Prod.fst) := by
  have hne' : ts.isEmpty = false := by
    cases ts
    · simp at hsz
    · rfl
  simp only [_get_best_thumbnail, hne', hsz, Bool.false_eq_true, if_false]
  have hfind : quality_order.find?
        (fun q => ((ts.reverse.foldl thumbFoldStep ([], none)).1.lookup q).isSome) =
      quality_order.find? (fun q => (wfEntries ts).any (qMatches q)) :=
    find?_congr_mem _ _ quality_order fun q hqm => lookup_isSome_eq_any ts q hqm
  rw [hfind]
  cases hf : quality_order.find? (fun q => (wfEntries ts).any (qMatches q)) with
  | some q =>
    have hqmem : q ∈ quality_order := List.mem_of_find?_eq_some hf
    dsimp only
    rw [thumbFold_lookup q hqmem ts.reverse ([], none)]
    dsimp only
    rw [List.filterMap_reverse]
    rfl
  | none =>
    dsimp only
    rw [thumbFold_snd ts.reverse ([], none)]
    exact lastWfUrl_reverse ts

/-- The sized thumbnail list of the C7 example. -/
def c7SizedExample : List Thumb :=
  [.dict { url := some "a", width := some 100, height := some 100 },
   .dict { url := some "b", width := some 640, height := some 480 }]

/-- The size-free thumbnail list of the C7 example. -/
def c7QualityExample : List Thumb :=
  [.dict { url := some "https://img/default.jpg" },
   .dict { url := some "https://img/hqdefault.jpg" }]

/-- C7 — Thumbnail selection: with every entry sized, the url of a
maximum-area entry is returned; when sizes are absent, the url recorded for
the best quality label present in the priority order is returned (the url of
the last well-formed entry matching that label), else the last well-formed
url seen in the reverse scan (the first well-formed entry of the list), else
null — in particular null whenever no entry is well-formed; concretely, the
sized example yields "b", the size-free example yields the hqdefault url, and
empty or absent lists yield null. -/
theorem c7_thumbnail_selection :
    (∀ ts : List Thumb, ts ≠ [] → ts.all thumbSized = true →
      ∃ d : ThumbDict, Thumb.dict d ∈ ts ∧ _get_best_thumbnail (some ts) = d.url ∧
        ∀ d' : ThumbDict, Thumb.dict d' ∈ ts →
          d'.width.getD 0 * d'.height.getD 0 ≤ d.width.getD 0 * d.height.getD 0) ∧
    (∀ ts : List Thumb, ts ≠ [] → ts.all thumbSized = false →
      _get_best_thumbnail (some ts) =
        (match quality_order.find? (fun q => (wfEntries ts).any (qMatches q)) with
         | some q => (((wfEntries ts).reverse).find? (qMatches q)).map Prod.fst
         | none => ((wfEntries ts).head?).map Prod.fst)) ∧
    (∀ ts : List Thumb, wfEntries ts = [] → ts.all thumbSized = false →
      _get_best_thumbnail (some ts) = none) ∧
    _get_best_thumbnail (some c7SizedExample) = some "b" ∧
    _get_best_thumbnail (some c7QualityExample) = some "https://img/hqdefault.jpg" ∧
    _get_best_thumbnail (some []) = none ∧
    _get_best_thumbnail none = none := by
  refine ⟨?_, fun ts _ hsz => best_thumbnail_fallback ts hsz, ?_, by decide, by decide,
    rfl, rfl⟩
  · intro ts hne hall
    have hne' : ts.isEmpty = false := by
      cases ts
      · exact absurd rfl hne
      · rfl
    obtain ⟨t, htmem, hmax, hbound⟩ := maxByArea_spec ts hne
    have hsized : thumbSized t = true := List.all_eq_true.mp hall t htmem
    cases t with
    | str s => simp [thumbSized] at hsized
    | dict d =>
      refine ⟨d, htmem, ?_, ?_⟩
      · simp [_get_best_thumbnail, hne', hall, hmax]
      · intro d' hd'
        have := hbound (.dict d') hd'
        simpa [thumbArea] using this
  · intro ts hwf hsz
    rw [best_thumbnail_fallback ts hsz, hwf]
    simp [quality_order]

/-- A thumbnail list with no well-formed entry, for the C7 witness. -/
def c7NoUrlExample : List Thumb := [Thumb.dict {}]

/-- C7 witness: the three general clauses evaluated on concrete lists — the
sized example, the size-free quality example, and a list with no well-formed
url. -/
theorem c7_witness :
    c7SizedExample ≠ [] ∧ c7SizedExample.all thumbSized = true ∧
    (∃ d : ThumbDict, Thumb.dict d ∈ c7SizedExample ∧
      _get_best_thumbnail (some c7SizedExample) = d.url ∧
      ∀ d' : ThumbDict, Thumb.dict d' ∈ c7SizedExample →
        d'.width.getD 0 * d'.height.getD 0 ≤ d.width.getD 0 * d.height.getD 0) ∧
    c7QualityExample ≠ [] ∧ c7QualityExample.all thumbSized = false ∧
    _get_best_thumbnail (some c7QualityExample) =
      (match quality_order.find? (fun q => (wfEntries c7QualityExample).any (qMatches q)) with
       | some q => (((wfEntries c7QualityExample).reverse).find? (qMatches q)).map Prod.fst
       | none => ((wfEntries c7QualityExample).head?).map Prod.fst) ∧
    wfEntries c7NoUrlExample = [] ∧ c7NoUrlExample.all thumbSized = false ∧
    _get_best_thumbnail (some c7NoUrlExample) = none :=
  ⟨by decide, by decide,
    c7_thumbnail_selection.1 c7SizedExample (by decide) (by decide),
    by decide, by decide,
    c7_thumbnail_selection.2.1 c7QualityExample (by decide) (by decide),
    by decide, by decide,
    c7_thumbnail_selection.2.2.1 c7NoUrlExample (by decide) (by decide)⟩

/-! ### `app/platforms/youtube.py`: search-result normalization -/

/-- A sub-record carrying a `name` key (artist or album entries). -/
structure NameDict where
  name : Option String := none
  deriving DecidableEq

/-- ASCII whitespace, for Python `str.strip`. -/
def isSpaceChar (c : Char) : Bool := c == ' ' || c == '\t' || c == '\n' || c == '\r'

/-- Python `s.strip()` (ASCII whitespace). -/
def strTrim (s : String) : String :=
  String.mk (((s.data.dropWhile isSpaceChar).reverse.dropWhile isSpaceChar).reverse)

/-- Model of `youtube.py _extract_artist_names`: joins the truthy, stripped artist names
with a comma, defaulting to the unknown-artist placeholder. -/
def _extract_artist_names (artists_data : Option (List NameDict)) : String :=
  match artists_data with
  | none => "Unknown Artist"
  | some l =>
    if l.isEmpty then "Unknown Artist"
    else
      let names := (l.filter (fun a => truthyS a.name)).map (fun a => strTrim (a.name.getD ""))
      if names.isEmpty then "Unknown Artist" else String.intercalate ", " names

/-- The duration cap applied during video-catalog search. -/
def MAX_DURATION_SEARCH_SECONDS : Int := 300

/-- A raw YouTube Music search item, with the keys `search_youtube` reads. -/
structure YTSearchItem where
  videoId : Option String := none
  title : Option String := none
  artists : Option (List NameDict) := none
  artist : Option String := none
  album : Option NameDict := none
  duration : Option String := none
  thumbnails : Option (List Thumb) := none
  deriving DecidableEq

/-- The normalized track dictionary produced by the `search_youtube` loop. -/
structure YTTrack where
  id : String
  videoId : String
  title : String
  artist : String
  album : String
  duration : Int
  durationString : String
  coverArt : Option String
  source : String
  deriving DecidableEq

/-- The loop body of `youtube.py search_youtube` (lines 105-128): skip items
without a truthy videoId, skip items longer than the search cap, otherwise
normalize. -/
def normalize_youtube_item (item : YTSearchItem) : Option YTTrack :=
  match item.videoId with
  | none => none
  | some video_id =>
    if video_id == "" then none
    else
      let duration_seconds := _parse_duration item.duration
      if MAX_DURATION_SEARCH_SECONDS > 0 && duration_seconds > MAX_DURATION_SEARCH_SECONDS then
        none
      else
        let artist0 := _extract_artist_names item.artists
        let artist_display_name :=
          if artist0 == "Unknown Artist" && item.artist.isSome then item.artist.getD artist0
          else artist0
        some {
          id := video_id
          videoId := video_id
          title := item.title.getD "Unknown Title"
          artist := artist_display_name
          album := match item.album with
            | some a => a.name.getD ""
            | none => ""
          duration := duration_seconds
          durationString := _format_duration_string duration_seconds
          coverArt := _get_best_thumbnail item.thumbnails
          source := "youtube" }

/-- The full result loop of `search_youtube`: normalize each item, dropping
the skipped ones. -/
def search_youtube_normalize (items : List YTSearchItem) : List YTTrack :=
  items.filterMap normalize_youtube_item

/-! ### `app/platforms/spotify.py`: track formatting -/

/-- One entry of an album image list. -/
structure SpImage where
  url : Option String := none
  deriving DecidableEq

/-- A Spotify album sub-record. -/
structure SpAlbum where
  name : Option String := none
  images : List SpImage := []
  deriving DecidableEq

/-- A raw Spotify track record, with the keys `_format_spotify_track` reads. -/
structure SpTrackData where
  type : Option String := none
  id : Option String := none
  name : Option String := none
  artists : List NameDict := []
  duration_ms : Option Int := none
  album : Option SpAlbum := none
  preview_url : Option String := none
  external_url : Option String := none
  popularity : Option Int := none
  deriving DecidableEq

/-- Insert a string into a sorted list, after any equal elements. -/
def pyInsert (x : String) : List String → List String
  | [] => [x]
  | y :: ys => if x < y then x :: y :: ys else y :: pyInsert x ys

/-- Python `sorted` on strings: a stable sort under the default string order. -/
def pySorted (l : List String) : List String := l.foldl (fun acc x => pyInsert x acc) []

/-- The sorted list of truthy artist names built by `_format_spotify_track`. -/
def spArtistNames (artists : List NameDict) : List String :=
  pySorted ((artists.filter (fun a => truthyS a.name)).map (fun a => a.name.getD ""))

/-- The simplified dictionary `_format_spotify_track` returns for stream search. -/
structure SpSimplified where
  id : String
  name : String
  artist : String
  duration_ms : Int
  deriving DecidableEq

/-- The full formatted track dictionary `_format_spotify_track` returns. -/
structure SpFormatted where
  id : String
  title : String
  artist : String
  album : String
  duration : Int
  durationString : String
  durationMs : Int
  coverArt : Option String
  source : String
  spotifyId : String
  previewUrl : Option String
  externalUrl : Option String
  popularity : Option Int
  deriving DecidableEq

/-- Model of `spotify.py _format_spotify_track` with `simplify_for_stream_search=True`:
the common guards (record of type track with a truthy id) and the simplified
payload. -/
def _format_spotify_track_simplified (track_data : Option SpTrackData) : Option SpSimplified :=
  match track_data with
  | none => none
  | some t =>
    if !(t.type == some "track") then none
    else if !truthyS t.id then none
    else
      let artist_names := spArtistNames t.artists
      some {
        id := t.id.getD ""
        name := t.name.getD "Unknown Title"
        artist := artist_names.headD "Unknown Artist"
        duration_ms := t.duration_ms.getD 0 }

/-- Model of `spotify.py _format_spotify_track` with `simplify_for_stream_search=False`:
the same guards and the full payload. -/
def _format_spotify_track (track_data : Option SpTrackData) : Option SpFormatted :=
  match track_data with
  | none => none
  | some t =>
    if !(t.type == some "track") then none
    else if !truthyS t.id then none
    else
      let artist_names := spArtistNames t.artists
      let cover_art :=
        match t.album with
        | some a =>
          match a.images with
          | img :: _ => img.url
          | [] => none
        | none => none
      let duration_ms := t.duration_ms.getD 0
      let duration_s := duration_ms / 1000
      some {
        id := t.id.getD ""
        title := t.name.getD "Unknown Title"
        artist := String.intercalate ", " artist_names
        album := (t.album.bind SpAlbum.name).getD "Unknown Album"
        duration := duration_s
        durationString := intStr (duration_s / 60) ++ ":" ++ pad2 ((duration_s % 60).toNat)
        durationMs := duration_ms
        coverArt := cover_art
        source := "spotify"
        spotifyId := t.id.getD ""
        previewUrl := t.preview_url
        externalUrl := t.external_url
        popularity := t.popularity }

/-! ### C9: ids are required and nonempty -/

theorem truthyS_getD_ne (o : Option String) (h : truthyS o = true) : o.getD "" ≠ "" := by
  cases o with
  | none => simp [truthyS] at h
  | some s =>
    simp only [truthyS, Bool.not_eq_true'] at h
    simpa using (beq_eq_false_iff_ne (a := s) (b := "")).mp h

theorem format_soundcloud_track_id_eq (t : SCTrackData) (nt : SCFormatted)
    (hnt : format_soundcloud_track t = some nt) : nt.id = intStr (t.id.getD 0) := by
  by_cases h1 : truthyI t.id = true
  · by_cases h2 : (!hasProgressiveStream t && !t.streamable) = true
    · simp [format_soundcloud_track, h1, h2] at hnt
    · rw [Bool.not_eq_true] at h2
      simp only [format_soundcloud_track, h1, h2, Bool.not_true, Bool.false_eq_true,
        if_false, Option.some.injEq] at hnt
      rw [← hnt]
  · rw [Bool.not_eq_true] at h1
    simp [format_soundcloud_track, h1] at hnt

theorem _format_spotify_track_some (t : SpTrackData) (nt : SpFormatted)
    (hnt : _format_spotify_track (some t) = some nt) :
    truthyS t.id = true ∧ nt.id = t.id.getD "" := by
  by_cases h1 : (t.type == some "track") = true
  · by_cases h2 : truthyS t.id = true
    · refine ⟨h2, ?_⟩
      simp only [_format_spotify_track, h1, h2, Bool.not_true, Bool.false_eq_true,
        if_false, Option.some.injEq] at hnt
      rw [← hnt]
    · rw [Bool.not_eq_true] at h2
      simp [_format_spotify_track, h1, h2] at hnt
  · rw [Bool.not_eq_true] at h1
    simp [_format_spotify_track, h1] at hnt

theorem normalize_youtube_item_some (item : YTSearchItem) (nt : YTTrack)
    (hnt : normalize_youtube_item item = some nt) :
    ∃ v, item.videoId = some v ∧ v ≠ "" ∧ nt.id = v := by
  cases hv : item.videoId with
  | none => rw [normalize_youtube_item, hv] at hnt; exact absurd hnt (by simp)
  | some v =>
    by_cases hvne : v = ""
    · subst hvne
      rw [normalize_youtube_item, hv] at hnt
      simp at hnt
    · by_cases hdur : MAX_DURATION_SEARCH_SECONDS < _parse_duration item.duration
      · simp [normalize_youtube_item, hv, hvne, MAX_DURATION_SEARCH_SECONDS] at hnt
        exact absurd hnt.1 (not_le.mpr hdur)
      · refine ⟨v, rfl, hvne, ?_⟩
        simp [normalize_youtube_item, hv, hvne, hdur, MAX_DURATION_SEARCH_SECONDS] at hnt
        rw [← hnt.2]

/-- C9 — Every normalizer (upload, licensed and video catalog) discards records
lacking an id and never produces a normalized track with an empty id. -/
theorem c9_id_required :
    (∀ t : SCTrackData, (truthyI t.id = false → format_soundcloud_track t = none) ∧
      (∀ nt, format_soundcloud_track t = some nt → nt.id ≠ "")) ∧
    (∀ t : SpTrackData, (truthyS t.id = false →
        _format_spotify_track (some t) = none ∧
        _format_spotify_track_simplified (some t) = none) ∧
      (∀ nt, _format_spotify_track (some t) = some nt → nt.id ≠ "")) ∧
    (∀ item : YTSearchItem, (truthyS item.videoId = false →
        normalize_youtube_item item = none) ∧
      (∀ nt, normalize_youtube_item item = some nt → nt.id ≠ "")) := by
  refine ⟨fun t => ⟨fun h => ?_, fun nt hnt => ?_⟩,
    fun t => ⟨fun h => ⟨?_, ?_⟩, fun nt hnt => ?_⟩,
    fun item => ⟨fun h => ?_, fun nt hnt => ?_⟩⟩
  · simp [format_soundcloud_track, h]
  · rw [format_soundcloud_track_id_eq t nt hnt]
    exact intStr_ne_empty _
  · by_cases ht : (t.type == some "track") = true <;> simp [_format_spotify_track, ht, h]
  · by_cases ht : (t.type == some "track") = true <;>
      simp [_format_spotify_track_simplified, ht, h]
  · obtain ⟨hid, hnt'⟩ := _format_spotify_track_some t nt hnt
    rw [hnt']
    exact truthyS_getD_ne t.id hid
  · cases hv : item.videoId with
    | none => simp [normalize_youtube_item, hv]
    | some v =>
      rw [hv] at h
      simp only [truthyS] at h
      have hv0 : v = "" := by simpa using h
      subst hv0
      simp [normalize_youtube_item, hv]
  · obtain ⟨v, hv, hvne, hnt'⟩ := normalize_youtube_item_some item nt hnt
    rw [hnt']
    exact hvne

/-- An upload-catalog record without an id, for the C9 witness. -/
def c9ScNoId : SCTrackData := { streamable := true }

/-- A licensed-catalog record without an id, for the C9 witness. -/
def c9SpNoId : SpTrackData := { type := some "track" }

/-- A video-catalog search item without a videoId, for the C9 witness. -/
def c9YtNoId : YTSearchItem := { title := some "T" }

/-- C9 witness: the discard clauses evaluated on concrete id-less records. -/
theorem c9_witness :
    truthyI c9ScNoId.id = false ∧ format_soundcloud_track c9ScNoId = none ∧
    truthyS c9SpNoId.id = false ∧ _format_spotify_track (some c9SpNoId) = none ∧
    truthyS c9YtNoId.videoId = false ∧ normalize_youtube_item c9YtNoId = none :=
  ⟨rfl, (c9_id_required.1 c9ScNoId).1 rfl, rfl, ((c9_id_required.2.1 c9SpNoId).1 rfl).1,
    rfl, (c9_id_required.2.2 c9YtNoId).1 rfl⟩

/-! ### `app/platforms/spotify.py`: the cross-catalog stream resolver

`get_spotify_stream_url` calls out to the Spotify, SoundCloud and YouTube
layers; those calls are modelled as oracle values carried by `ResolverEnv`.
The exception handlers of the source turn any raised error into an error
dictionary, so the pure model covers every non-raising path and the raising
paths also produce error dictionaries. -/

/-- A stream-result dictionary (`Dict[str, str]`): the keys written by the
SoundCloud/YouTube stream resolvers and read by `get_spotify_stream_url`.
A Python dict may carry any of these keys; absent keys are `none`. -/
structure StreamDict where
  url : Option String := none
  type : Option String := none
  source : Option String := none
  videoId : Option String := none
  error : Option String := none
  deriving DecidableEq

/-- A YouTube details dictionary: the keys written by
`get_youtube_track_details` plus the `durationMs` key read (via `.get`) by
`get_spotify_stream_url`.  The producer in this repository never writes
`durationMs`, but the dictionary type allows it. -/
structure YTDetails where
  id : Option String := none
  videoId : Option String := none
  title : Option String := none
  artist : Option String := none
  album : Option String := none
  duration : Option Int := none
  durationString : Option String := none
  coverArt : Option String := none
  source : Option String := none
  durationMs : Option Int := none
  deriving DecidableEq

/-- The duration difference computed in the SoundCloud scan: the candidate
duration is its whole-second duration times 1000, compared to the Spotify
duration in milliseconds. -/
def scDurationDiff (spotify_duration_ms : Int) (t : SCFormatted) : Nat :=
  (t.duration * 1000 - spotify_duration_ms).natAbs

/-- The SoundCloud candidate scan of `get_spotify_stream_url` (lines 131-140):
track the strictly-smaller minimum (ties keep the earlier candidate) and stop
at the first candidate within 5000 ms. -/
def scanLoop (spotify_duration_ms : Int) :
    List SCFormatted → Option (SCFormatted × Nat) → Option (SCFormatted × Nat)
  | [], best => best
  | t :: rest, best =>
    let d := scDurationDiff spotify_duration_ms t
    let best' :=
      match best with
      | none => some (t, d)
      | some (b, m) => if d < m then some (t, d) else some (b, m)
    if d ≤ 5000 then best' else scanLoop spotify_duration_ms rest best'

/-- The acceptance decision after the scan (line 142): the tracked best
candidate is used only when its difference is at most 10000 ms. -/
def chooseSoundcloudMatch (spotify_duration_ms : Int) (results : List SCFormatted) :
    Option SCFormatted :=
  match scanLoop spotify_duration_ms results none with
  | some (b, m) => if m ≤ 10000 then some b else none
  | none => none

/-- The SoundCloud step of `get_spotify_stream_url` (lines 129-148): scan the
search results, accept the best candidate, resolve its stream, and return the
stream only when it carries a truthy url. -/
def soundcloudStep (spotify_duration_ms : Int) (sc_results : List SCFormatted)
    (scStreamOf : String → Option StreamDict) : Option StreamDict :=
  if sc_results.isEmpty then none
  else
    match chooseSoundcloudMatch spotify_duration_ms sc_results with
    | some best =>
      match scStreamOf best.id with
      | some sd => if truthyS sd.url then some sd else none
      | none => none
    | none => none

/-- The YouTube step of `get_spotify_stream_url` (lines 150-169): given the
resolved stream value, return it when it has a truthy url — except that a
stream carrying a truthy videoId whose fetched details carry a truthy
durationMs differing from the Spotify duration by more than 15000 ms is
rejected (the step yields nothing and the resolver falls through). -/
def youtubeStep (spotify_duration_ms : Int) (yt_stream_data : Option StreamDict)
    (ytDetailsOf : String → Option YTDetails) : Option StreamDict :=
  match yt_stream_data with
  | none => none
  | some sd =>
    if !truthyS sd.url then none
    else
      match sd.videoId with
      | some vid =>
        if vid == "" then some sd
        else
          match ytDetailsOf vid with
          | some det =>
            if truthyI det.durationMs then
              if (det.durationMs.getD 0 - spotify_duration_ms).natAbs > 15000 then none
              else some sd
            else some sd
          | none => some sd
      | none => some sd

/-- The oracle environment of `get_spotify_stream_url`: the values produced by
the Spotify client, the SoundCloud search/stream calls and the YouTube
stream/details calls. -/
structure ResolverEnv where
  hasClient : Bool := true
  trackInfo : Option SpTrackData := none
  scResults : List SCFormatted := []
  scStreamOf : String → Option StreamDict := fun _ => none
  ytStream : Option StreamDict := none
  ytDetailsOf : String → Option YTDetails := fun _ => none

/-- Model of `spotify.py get_spotify_stream_url` (lines 106-187): resolve a streamable
equivalent of a Spotify track on SoundCloud, then YouTube, then fall back to
the Spotify preview clip, then to an explicit error dictionary. -/
def get_spotify_stream_url (track_id : String) (env : ResolverEnv) : Option StreamDict :=
  if !env.hasClient then some { error := some "Spotify client not configured." }
  else
    match env.trackInfo with
    | none => some { error := some ("Spotify track ID " ++ track_id ++ " not found.") }
    | some track_info =>
      match _format_spotify_track_simplified (some track_info) with
      | none => some { error := some "Could not format Spotify track details for search." }
      | some simplified =>
        let spotify_duration_ms := simplified.duration_ms
        match soundcloudStep spotify_duration_ms env.scResults env.scStreamOf with
        | some sd => some sd
        | none =>
          match youtubeStep spotify_duration_ms env.ytStream env.ytDetailsOf with
          | some sd => some sd
          | none =>
            if truthyS track_info.preview_url then
              some { url := track_info.preview_url, type := some "audio_preview",
                     source := some "spotify" }
            else
              some { error := some "No streamable source found for this Spotify track." }

/-! ### C1: the SoundCloud candidate scan -/

/-- Modelled from the claim's wording: the candidates the scan actually
examines — up to and including the first candidate within 5000 ms, or the
whole list when none qualifies. -/
def examinedCandidates (spotify_duration_ms : Int) : List SCFormatted → List SCFormatted
  | [] => []
  | t :: rest =>
    if scDurationDiff spotify_duration_ms t ≤ 5000 then [t]
    else t :: examinedCandidates spotify_duration_ms rest

/-- The scan body without the early exit, for relating the loop to the
minimum of the examined list. -/
def minScan (spotify_duration_ms : Int) :
    List SCFormatted → Option (SCFormatted × Nat) → Option (SCFormatted × Nat)
  | [], best => best
  | t :: rest, best =>
    let d := scDurationDiff spotify_duration_ms t
    minScan spotify_duration_ms rest
      (match best with
       | none => some (t, d)
       | some (b, m) => if d < m then some (t, d) else some (b, m))

/-- Modelled from the claim's wording: the minimum-difference candidate of a
list, ties resolved to the first scanned. -/
def firstMinDiff (spotify_duration_ms : Int) : List SCFormatted → Option (SCFormatted × Nat)
  | [] => none
  | t :: rest =>
    let d := scDurationDiff spotify_duration_ms t
    match firstMinDiff spotify_duration_ms rest with
    | none => some (t, d)
    | some (b, m) => if d ≤ m then some (t, d) else some (b, m)

theorem scanLoop_eq_minScan (ms : Int) (l : List SCFormatted) :
    ∀ best, scanLoop ms l best = minScan ms (examinedCandidates ms l) best := by
  induction l with
  | nil => intro best; rfl
  | cons t rest ih =>
    intro best
    by_cases hd : scDurationDiff ms t ≤ 5000
    · simp only [scanLoop, examinedCandidates, if_pos hd, minScan]
    · simp only [scanLoop, examinedCandidates, if_neg hd, minScan]
      exact ih _

theorem minScan_some (ms : Int) (l : List SCFormatted) :
    ∀ b m, minScan ms l (some (b, m)) =
      match firstMinDiff ms l with
      | none => some (b, m)
      | some (u, e) => if e < m then some (u, e) else some (b, m) := by
  induction l with
  | nil => intro b m; rfl
  | cons t rest ih =>
    intro b m
    simp only [minScan, firstMinDiff]
    by_cases hd : scDurationDiff ms t < m
    · rw [if_pos hd, ih t (scDurationDiff ms t)]
      cases hfm : firstMinDiff ms rest with
      | none => simp [hd]
      | some p =>
        obtain ⟨u, e⟩ := p
        dsimp only
        by_cases hde : scDurationDiff ms t ≤ e
        · rw [if_pos hde, if_neg (by omega : ¬ e < scDurationDiff ms t)]
          dsimp only
          rw [if_pos hd]
        · rw [if_neg hde, if_pos (by omega : e < scDurationDiff ms t)]
          dsimp only
          rw [if_pos (by omega : e < m)]
    · rw [if_neg hd, ih b m]
      cases hfm : firstMinDiff ms rest with
      | none => simp [hd]
      | some p =>
        obtain ⟨u, e⟩ := p
        dsimp only
        by_cases hde : scDurationDiff ms t ≤ e
        · rw [if_pos hde]
          dsimp only
          rw [if_neg (by omega : ¬ scDurationDiff ms t < m),
            if_neg (by omega : ¬ e < m)]
        · rw [if_neg hde]

theorem minScan_none (ms : Int) (l : List SCFormatted) :
    minScan ms l none = firstMinDiff ms l := by
  cases l with
  | nil => rfl
  | cons t rest =>
    simp only [minScan, firstMinDiff]
    rw [minScan_some]
    cases hfm : firstMinDiff ms rest with
    | none => rfl
    | some p =>
      obtain ⟨u, e⟩ := p
      dsimp only
      by_cases hde : scDurationDiff ms t ≤ e
      · rw [if_neg (by omega : ¬ e < scDurationDiff ms t), if_pos hde]
      · rw [if_pos (by omega : e < scDurationDiff ms t), if_neg hde]

theorem chooseSoundcloudMatch_eq (ms : Int) (l : List SCFormatted) :
    chooseSoundcloudMatch ms l =
      match firstMinDiff ms (examinedCandidates ms l) with
      | none => none
      | some (b, m) => if m ≤ 10000 then some b else none := by
  unfold chooseSoundcloudMatch
  rw [scanLoop_eq_minScan, minScan_none]
  cases firstMinDiff ms (examinedCandidates ms l) <;> rfl

theorem examinedCandidates_append_good (ms : Int) (l : List SCFormatted)
    (hgood : ∃ t ∈ l, scDurationDiff ms t ≤ 5000) (post : List SCFormatted) :
    examinedCandidates ms (l ++ post) = examinedCandidates ms l := by
  induction l with
  | nil =>
    obtain ⟨t, ht, _⟩ := hgood
    exact absurd ht (List.not_mem_nil t)
  | cons a rest ih =>
    by_cases hd : scDurationDiff ms a ≤ 5000
    · simp only [List.cons_append, examinedCandidates, if_pos hd]
    · simp only [List.cons_append, List.append_eq, examinedCandidates, if_neg hd]
      obtain ⟨t, ht, htd⟩ := hgood
      rcases List.mem_cons.mp ht with rfl | ht'
      · exact absurd htd hd
      · rw [ih ⟨t, ht', htd⟩]

/-- C1 — The SoundCloud candidate scan of the resolver: over any list of at
most five candidates, the accepted candidate is exactly the first-tie minimum
of the examined candidates (the scan stops at the first candidate within
5000 ms), accepted iff its difference is at most 10000 ms; and once some
candidate is within 5000 ms, candidates appended after the list cannot change
the outcome. -/
theorem c1_upload_scan (ms : Int) (results : List SCFormatted)
    (hlen : results.length ≤ 5) :
    (chooseSoundcloudMatch ms results =
      match firstMinDiff ms (examinedCandidates ms results) with
      | none => none
      | some (b, m) => if m ≤ 10000 then some b else none) ∧
    (∀ post : List SCFormatted,
      (∃ t ∈ results, scDurationDiff ms t ≤ 5000) →
      chooseSoundcloudMatch ms (results ++ post) = chooseSoundcloudMatch ms results) := by
  refine ⟨chooseSoundcloudMatch_eq ms results, fun post h => ?_⟩
  rw [chooseSoundcloudMatch_eq, chooseSoundcloudMatch_eq,
    examinedCandidates_append_good ms results h post]

/-- A concrete SoundCloud candidate, for the C1 witness. -/
def c1Cand (idStr : String) (dur : Int) : SCFormatted :=
  { id := idStr, title := "t", artist := "a", duration := dur,
    durationString := "0:08", source := "soundcloud", streamable := true,
    coverArt := none, genre := none, permalinkUrl := none }

/-- The candidate list with diffs 8000, 3000, 1000 against target 0 ms. -/
def c1Results : List SCFormatted := [c1Cand "1" 8, c1Cand "2" 3, c1Cand "3" 1]

/-- C1 witness: the scan characterization evaluated on the concrete
three-candidate list, together with the concrete outcome: the scan stops at
the second candidate (diff 3000 ≤ 5000) and accepts it. -/
theorem c1_witness :
    c1Results.length ≤ 5 ∧
    ((chooseSoundcloudMatch 0 c1Results =
      match firstMinDiff 0 (examinedCandidates 0 c1Results) with
      | none => none
      | some (b, m) => if m ≤ 10000 then some b else none) ∧
     (∀ post : List SCFormatted,
      (∃ t ∈ c1Results, scDurationDiff 0 t ≤ 5000) →
      chooseSoundcloudMatch 0 (c1Results ++ post) = chooseSoundcloudMatch 0 c1Results)) ∧
    chooseSoundcloudMatch 0 c1Results = some (c1Cand "2" 3) ∧
    examinedCandidates 0 c1Results = [c1Cand "1" 8, c1Cand "2" 3] :=
  ⟨by decide, c1_upload_scan 0 c1Results (by decide), by decide, by decide⟩

/-! ### C2: the video-catalog duration check -/

/-- C2 — Video-catalog duration check of the resolver: for a resolved video
stream with a truthy url that carries an identifier, whose fetched details
carry a truthy durationMs, the step rejects the stream (yields nothing, so the
resolver falls through to the later fallbacks) exactly when the duration
difference exceeds 15000 ms, and returns the stream otherwise. -/
theorem c2_video_duration_check (spotify_duration_ms : Int) (sd : StreamDict)
    (vid : String) (det : YTDetails) (ytDetailsOf : String → Option YTDetails)
    (hurl : truthyS sd.url = true) (hvid : sd.videoId = some vid) (hvne : vid ≠ "")
    (hdet : ytDetailsOf vid = some det) (hdm : truthyI det.durationMs = true) :
    youtubeStep spotify_duration_ms (some sd) ytDetailsOf =
      (if (det.durationMs.getD 0 - spotify_duration_ms).natAbs > 15000 then none
       else some sd) := by
  simp [youtubeStep, hurl, hvid, hvne, hdet, hdm]

/-- The resolved stream of the C2 witness, carrying an identifier. -/
def c2Stream : StreamDict :=
  { url := some "https://yt/a", type := some "audio",
    source := some "youtube", videoId := some "vid1" }

/-- The fetched details of the C2 witness: 200000 ms. -/
def c2Details : YTDetails := { durationMs := some 200000 }

/-- The details oracle of the C2 witness. -/
def c2DetailsOf : String → Option YTDetails :=
  fun v => if v == "vid1" then some c2Details else none

/-- C2 witness: with a target of 180000 ms the difference is 20000 ms, so the
step rejects the stream. -/
theorem c2_witness :
    truthyS c2Stream.url = true ∧ c2Stream.videoId = some "vid1" ∧
    ("vid1" : String) ≠ "" ∧ c2DetailsOf "vid1" = some c2Details ∧
    truthyI c2Details.durationMs = true ∧
    youtubeStep 180000 (some c2Stream) c2DetailsOf =
      (if (c2Details.durationMs.getD 0 - 180000).natAbs > 15000 then none
       else some c2Stream) ∧
    youtubeStep 180000 (some c2Stream) c2DetailsOf = none :=
  ⟨rfl, rfl, by decide, rfl, rfl,
    c2_video_duration_check 180000 c2Stream "vid1" c2Details c2DetailsOf rfl rfl
      (by decide) rfl rfl,
    by decide⟩

/-! ### C3: the resolver always produces a well-formed result -/

/-- A well-formed resolver result: a stream with a truthy url, or an explicit
error dictionary with a nonempty message. -/
def wellFormedResult (sd : StreamDict) : Prop :=
  truthyS sd.url = true ∨ ∃ msg, sd.error = some msg ∧ msg ≠ ""

theorem soundcloudStep_some_url (ms : Int) (rs : List SCFormatted)
    (f : String → Option StreamDict) (sd : StreamDict)
    (h : soundcloudStep ms rs f = some sd) : truthyS sd.url = true := by
  unfold soundcloudStep at h
  by_cases he : rs.isEmpty = true
  · simp [he] at h
  · rw [Bool.not_eq_true] at he
    simp only [he, Bool.false_eq_true, if_false] at h
    cases hc : chooseSoundcloudMatch ms rs with
    | none => rw [hc] at h; exact absurd h (by simp)
    | some best =>
      rw [hc] at h
      dsimp only at h
      cases hs : f best.id with
      | none => rw [hs] at h; exact absurd h (by simp)
      | some sd' =>
        rw [hs] at h
        dsimp only at h
        by_cases hu : truthyS sd'.url = true
        · rw [if_pos hu] at h
          rwa [← Option.some.inj h]
        · rw [if_neg hu] at h
          exact absurd h (by simp)

theorem youtubeStep_some_url (ms : Int) (yt : Option StreamDict)
    (f : String → Option YTDetails) (sd : StreamDict)
    (h : youtubeStep ms yt f = some sd) : truthyS sd.url = true := by
  cases yt with
  | none => exact absurd h (by simp [youtubeStep])
  | some sd' =>
    unfold youtubeStep at h
    dsimp only at h
    by_cases hu : truthyS sd'.url = true
    · have hsd : sd = sd' := by
        rw [hu] at h
        simp only [Bool.not_true, Bool.false_eq_true, if_false] at h
        cases hv : sd'.videoId with
        | none => rw [hv] at h; exact (Option.some.inj h).symm
        | some vid =>
          rw [hv] at h
          dsimp only at h
          by_cases hvne : (vid == "") = true
          · rw [if_pos hvne] at h
            exact (Option.some.inj h).symm
          · rw [if_neg hvne] at h
            cases hd : f vid with
            | none => rw [hd] at h; exact (Option.some.inj h).symm
            | some det =>
              rw [hd] at h
              dsimp only at h
              by_cases hdm : truthyI det.durationMs = true
              · rw [if_pos hdm] at h
                by_cases hdiff : (det.durationMs.getD 0 - ms).natAbs > 15000
                · rw [if_pos hdiff] at h
                  exact absurd h (by simp)
                · rw [if_neg hdiff] at h
                  exact (Option.some.inj h).symm
              · rw [if_neg hdm] at h
                exact (Option.some.inj h).symm
      rw [hsd]
      exact hu
    · rw [Bool.not_eq_true] at hu
      simp [hu] at h

/-- C3 — For every environment in which the licensed-catalog details lookup
succeeds, the resolver returns a value (never none, never an exception in the
model) that is either a stream with a truthy url or an explicit error
dictionary with a nonempty message. -/
theorem c3_total_result (track_id : String) (env : ResolverEnv) (t : SpTrackData)
    (hlookup : env.trackInfo = some t) :
    ∃ sd, get_spotify_stream_url track_id env = some sd ∧ wellFormedResult sd := by
  unfold get_spotify_stream_url
  by_cases hc : env.hasClient = true
  · simp only [hc, Bool.not_true, Bool.false_eq_true, if_false, hlookup]
    cases hfmt : _format_spotify_track_simplified (some t) with
    | none =>
      exact ⟨_, rfl, Or.inr ⟨"Could not format Spotify track details for search.",
        rfl, by decide⟩⟩
    | some st =>
      dsimp only
      cases hsc : soundcloudStep st.duration_ms env.scResults env.scStreamOf with
      | some sd => exact ⟨sd, rfl, Or.inl (soundcloudStep_some_url _ _ _ _ hsc)⟩
      | none =>
        dsimp only
        cases hyt : youtubeStep st.duration_ms env.ytStream env.ytDetailsOf with
        | some sd => exact ⟨sd, rfl, Or.inl (youtubeStep_some_url _ _ _ _ hyt)⟩
        | none =>
          dsimp only
          by_cases hp : truthyS t.preview_url = true
          · rw [if_pos hp]
            exact ⟨_, rfl, Or.inl hp⟩
          · rw [if_neg (by simp [hp] : ¬ truthyS t.preview_url = true)]
            exact ⟨_, rfl,
              Or.inr ⟨"No streamable source found for this Spotify track.", rfl, by decide⟩⟩
  · rw [Bool.not_eq_true] at hc
    simp only [hc, Bool.not_false, if_true]
    exact ⟨_, rfl, Or.inr ⟨"Spotify client not configured.", rfl, by decide⟩⟩

/-- The licensed track of the C3 witness. -/
def c3Track : SpTrackData := { type := some "track", id := some "sp1" }

/-- The environment of the C3 witness: the details lookup succeeds, every
downstream call fails. -/
def c3Env : ResolverEnv := { trackInfo := some c3Track }

/-- C3 witness: the totality statement evaluated on a concrete environment. -/
theorem c3_witness :
    c3Env.trackInfo = some c3Track ∧
    ∃ sd, get_spotify_stream_url "sp1" c3Env = some sd ∧ wellFormedResult sd :=
  ⟨rfl, c3_total_result "sp1" c3Env c3Track rfl⟩

/-! ### C5: the preview fallback -/

/-- C5 (amended) — When the upload step and the video step both yield nothing
and the licensed track carries a truthy (non-empty) preview URL, the resolver
returns exactly that URL as an audio preview sourced from the licensed
catalog. -/
theorem c5_preview_fallback (track_id : String) (env : ResolverEnv) (t : SpTrackData)
    (st : SpSimplified) (p : String)
    (hclient : env.hasClient = true)
    (hinfo : env.trackInfo = some t)
    (hfmt : _format_spotify_track_simplified (some t) = some st)
    (hsc : soundcloudStep st.duration_ms env.scResults env.scStreamOf = none)
    (hyt : youtubeStep st.duration_ms env.ytStream env.ytDetailsOf = none)
    (hprev : t.preview_url = some p) (hp : p ≠ "") :
    get_spotify_stream_url track_id env =
      some { url := some p, type := some "audio_preview", source := some "spotify" } := by
  simp [get_spotify_stream_url, hclient, hinfo, hfmt, hsc, hyt, hprev, truthyS, hp]

/-- The licensed track of the C5 counterexample: its preview URL is non-null
but empty. -/
def c5Track : SpTrackData :=
  { type := some "track", id := some "sp2", preview_url := some "" }

/-- The environment of the C5 counterexample. -/
def c5Env : ResolverEnv := { trackInfo := some c5Track }

/-- C5 counterexample: the upload and video steps yield nothing and the
preview URL is non-null, yet the resolver returns the error dictionary, not
the audio-preview result the claim requires. -/
theorem c5_counterexample :
    c5Track.preview_url ≠ none ∧
    soundcloudStep 0 c5Env.scResults c5Env.scStreamOf = none ∧
    youtubeStep 0 c5Env.ytStream c5Env.ytDetailsOf = none ∧
    get_spotify_stream_url "sp2" c5Env =
      some { error := some "No streamable source found for this Spotify track." } ∧
    get_spotify_stream_url "sp2" c5Env ≠
      some { url := c5Track.preview_url, type := some "audio_preview",
             source := some "spotify" } := by
  refine ⟨by decide, rfl, rfl, rfl, by decide⟩

/-- The licensed track of the C5 witness: a nonempty preview URL. -/
def c5GoodTrack : SpTrackData :=
  { type := some "track", id := some "sp3", preview_url := some "https://p/clip.mp3" }

/-- The environment of the C5 witness. -/
def c5GoodEnv : ResolverEnv := { trackInfo := some c5GoodTrack }

/-- The simplified form of the C5 witness track. -/
def c5GoodSimplified : SpSimplified :=
  { id := "sp3", name := "Unknown Title", artist := "Unknown Artist", duration_ms := 0 }

/-- C5 witness: the amended fallback evaluated on a concrete environment. -/
theorem c5_witness :
    c5GoodEnv.hasClient = true ∧
    c5GoodEnv.trackInfo = some c5GoodTrack ∧
    _format_spotify_track_simplified (some c5GoodTrack) = some c5GoodSimplified ∧
    soundcloudStep c5GoodSimplified.duration_ms c5GoodEnv.scResults c5GoodEnv.scStreamOf
      = none ∧
    youtubeStep c5GoodSimplified.duration_ms c5GoodEnv.ytStream c5GoodEnv.ytDetailsOf
      = none ∧
    c5GoodTrack.preview_url = some "https://p/clip.mp3" ∧
    ("https://p/clip.mp3" : String) ≠ "" ∧
    get_spotify_stream_url "sp3" c5GoodEnv =
      some { url := some "https://p/clip.mp3", type := some "audio_preview",
             source := some "spotify" } :=
  ⟨rfl, rfl, rfl, rfl, rfl, rfl, by decide,
    c5_preview_fallback "sp3" c5GoodEnv c5GoodTrack c5GoodSimplified "https://p/clip.mp3"
      rfl rfl rfl rfl rfl rfl (by decide)⟩

/-! ### `main.py`: the platform-dispatch endpoints -/

/-- A response body of the dispatch endpoints: platform payloads, a null body
(the soundcloud details endpoint returns the possibly-null formatted record),
or an error object. -/
inductive ApiResponse where
  | scResults (ts : List SCFormatted)
  | ytResults (ts : List YTTrack)
  | spResults (ts : List SpFormatted)
  | scTrack (t : Option SCFormatted)
  | ytTrack (t : YTDetails)
  | spTrack (t : SpFormatted)
  | stream (sd : StreamDict)
  | error (msg : String)
  deriving DecidableEq

/-- Model of `main.py search` (lines 76-86): dispatch a search to the named platform;
any other platform name yields the unsupported-platform error. -/
def search_endpoint (platform : String)
    (scSearch : List SCFormatted) (ytSearch : List YTTrack)
    (spSearch : List SpFormatted) : ApiResponse :=
  if platform == "soundcloud" then .scResults scSearch
  else if platform == "youtube" then .ytResults ytSearch
  else if platform == "spotify" then .spResults spSearch
  else .error "Unsupported platform"

/-- Model of `main.py get_track` (lines 88-103): dispatch a details lookup to the named
platform; a failed lookup — and any unrecognized platform name — falls through
to the shared not-found error. -/
def get_track_endpoint (platform : String)
    (scDetails : Option SCTrackData) (ytDetails : Option YTDetails)
    (spDetails : Option SpFormatted) : ApiResponse :=
  if platform == "soundcloud" then
    match scDetails with
    | some details => .scTrack (format_soundcloud_track details)
    | none => .error "Track not found"
  else if platform == "youtube" then
    match ytDetails with
    | some details => .ytTrack details
    | none => .error "Track not found"
  else if platform == "spotify" then
    match spDetails with
    | some details => .spTrack details
    | none => .error "Track not found"
  else .error "Track not found"

/-- Model of `main.py get_stream` (lines 105-117): dispatch a stream request to the
named platform; any other platform name yields the unsupported-platform error,
and a platform returning nothing yields the stream-not-available error. -/
def get_stream_endpoint (platform track_id : String)
    (scStream ytStream : Option StreamDict) (spEnv : ResolverEnv) : ApiResponse :=
  if platform == "soundcloud" then
    match scStream with
    | some sd => .stream sd
    | none => .error "Stream not available"
  else if platform == "youtube" then
    match ytStream with
    | some sd => .stream sd
    | none => .error "Stream not available"
  else if platform == "spotify" then
    match get_spotify_stream_url track_id spEnv with
    | some sd => .stream sd
    | none => .error "Stream not available"
  else .error "Unsupported platform"

/-- C4 (amended) — For every catalog name outside the three supported ones,
the search and stream endpoints return the explicit unsupported-platform
error, while the track-details endpoint returns its generic not-found error —
an explicit error value in every case, never a crash. -/
theorem c4_unsupported_platform (platform : String)
    (h1 : platform ≠ "soundcloud") (h2 : platform ≠ "youtube")
    (h3 : platform ≠ "spotify")
    (track_id : String) (scSearch : List SCFormatted) (ytSearch : List YTTrack)
    (spSearch : List SpFormatted) (scDetails : Option SCTrackData)
    (ytDetails : Option YTDetails) (spDetails : Option SpFormatted)
    (scStream ytStream : Option StreamDict) (spEnv : ResolverEnv) :
    search_endpoint platform scSearch ytSearch spSearch =
      .error "Unsupported platform" ∧
    get_stream_endpoint platform track_id scStream ytStream spEnv =
      .error "Unsupported platform" ∧
    get_track_endpoint platform scDetails ytDetails spDetails =
      .error "Track not found" := by
  have e1 : (platform == "soundcloud") = false := beq_eq_false_iff_ne.mpr h1
  have e2 : (platform == "youtube") = false := beq_eq_false_iff_ne.mpr h2
  have e3 : (platform == "spotify") = false := beq_eq_false_iff_ne.mpr h3
  refine ⟨?_, ?_, ?_⟩ <;>
    simp [search_endpoint, get_stream_endpoint, get_track_endpoint, e1, e2, e3]

/-- C4 counterexample: for the catalog name "unknown" the track-details
endpoint returns the generic not-found error, which is not the
unsupported-platform error the claim requires of all three endpoints. -/
theorem c4_counterexample :
    get_track_endpoint "unknown" none none none = .error "Track not found" ∧
    ApiResponse.error "Track not found" ≠ ApiResponse.error "Unsupported platform" := by
  refine ⟨rfl, by decide⟩

/-- C4 witness: the amended statement evaluated at the catalog name "unknown". -/
theorem c4_witness :
    ("unknown" : String) ≠ "soundcloud" ∧ ("unknown" : String) ≠ "youtube" ∧
    ("unknown" : String) ≠ "spotify" ∧
    (search_endpoint "unknown" [] [] [] = .error "Unsupported platform" ∧
     get_stream_endpoint "unknown" "id1" none none {} = .error "Unsupported platform" ∧
     get_track_endpoint "unknown" none none none = .error "Track not found") :=
  ⟨by decide, by decide, by decide,
    c4_unsupported_platform "unknown" (by decide) (by decide) (by decide)
      "id1" [] [] [] none none none none none {}⟩
